import Mathlib

/-!
Verification development for the core of the Rhai scripting engine
(repository `JPMoresmau/rhai`).

The repository sources embedded here are `src/ast.rs` (the `AST` type and its
`merge` / `combine` / `clone_functions_only` / `clone_statements_only`
operations), `src/fn_native.rs` (`FnPtr` and its `call_dynamic` and `TryFrom`
conversions), `src/engine_api.rs` (`eval_ast_with_scope`, `call_fn`,
`call_fn_dynamic_raw`, `register_indexer_get`, `register_indexer_set`) and
`src/packages/time_basic.rs` (the timestamp `+` / `-` operators).

Parts of the engine referenced by that code but not present in the sources
(`module.rs`, the parser, `engine.rs` / `fn_call.rs` evaluator internals,
`token.rs`) are modelled from the specification; every such definition carries
a doc comment starting with `Modelled from the spec:`.
-/

namespace Rhai

/-! ## Dynamic values

Embedded from the `Dynamic` tagged union described in the spec (§3 DATA MODEL)
and used throughout `src`.  Only the variants exercised by the embedded code
are included: `Unit`, `Bool`, `Int`, `Char`, `Str`, `FnPtr` (name plus curried
arguments) and `TimeStamp` (modelled as whole seconds from an arbitrary
origin). -/
inductive Dynamic where
  | unit : Dynamic
  | bool (b : Bool) : Dynamic
  | int (i : Int) : Dynamic
  | char (c : Char) : Dynamic
  | str (s : String) : Dynamic
  | fnPtr (name : String) (curry : List Dynamic) : Dynamic
  | timestamp (t : Nat) : Dynamic
  deriving Repr

/-! ## Timestamp arithmetic (`src/packages/time_basic.rs`)

`Instant` is opaque in the source; per the spec (§3) it is an "opaque monotonic
instant".  We model it as a number of whole seconds from an arbitrary origin,
bounded by `instantMax` (the largest representable instant, as enforced by
`Instant::checked_add` / `checked_sub` in the standard library).  `INT` is the
host integer type, 64-bit per the spec (§3), so the representable range is
`[intMin, intMax]`. -/

def intMin : Int := -(2 ^ 63)

def intMax : Int := 2 ^ 63 - 1

def instantMax : Nat := 2 ^ 63 - 1

/-- Two's-complement (wrapping) negation of a 64-bit integer: every value is
sent to its mathematical negation except `intMin`, whose negation is not
representable and wraps back to `intMin`.  This is the release-mode semantics
of `-seconds` in `add_impl` / `subtract_impl`; in overflow-checked builds the
same line panics instead of wrapping, so in neither build does negating
`intMin` produce a usable value. -/
def negWrap (s : Int) : Int := if s = intMin then intMin else -s

/-- `Instant::checked_add(Duration::from_secs d)`: `none` when the sum is not
representable as an instant. -/
def checkedAddInstant (x d : Nat) : Option Nat :=
  if x + d ≤ instantMax then some (x + d) else none

/-- `Instant::checked_sub(Duration::from_secs d)`: `none` when the result would
precede the earliest representable instant. -/
def checkedSubInstant (x d : Nat) : Option Nat :=
  if d ≤ x then some (x - d) else none

/-- Error message produced by `make_arithmetic_err` in `add_impl` /
`subtract_impl` (`src/packages/time_basic.rs` lines 169-198). -/
def timestampOverflowMsg (seconds : Int) : String :=
  "Timestamp overflow when adding " ++ toString seconds ++ " second(s)"

/-- Fuel-indexed embedding of the mutually recursive `add_impl` /
`subtract_impl` pair of `src/packages/time_basic.rs` (lines 169-198).
`isAdd = true` is `add_impl`, `isAdd = false` is `subtract_impl`.  Each
redirection `seconds < 0 → other_impl(x, -seconds)` consumes one unit of fuel;
`none` means the fuel ran out, i.e. the source never reaches a return on that
input (the checked path is compiled in: `cfg!(not(feature = "unchecked"))`
holds for the default build). -/
def timeOpImpl : Nat → Bool → Nat → Int → Option (Except String Nat)
  | 0, _, _, _ => none
  | fuel + 1, isAdd, x, seconds =>
      if seconds < 0 then
        timeOpImpl fuel (!isAdd) x (negWrap seconds)
      else
        some <|
          match (if isAdd then checkedAddInstant x seconds.toNat
                 else checkedSubInstant x seconds.toNat) with
          | some t => .ok t
          | none => .error (timestampOverflowMsg seconds)

/-- `add_impl` with enough fuel for every input on which the source
terminates (at most one redirection happens when `seconds ≠ intMin`). -/
def add_impl (x : Nat) (seconds : Int) : Option (Except String Nat) :=
  timeOpImpl 2 true x seconds

/-- `subtract_impl` with enough fuel for every input on which the source
terminates. -/
def subtract_impl (x : Nat) (seconds : Int) : Option (Except String Nat) :=
  timeOpImpl 2 false x seconds

/-- Registered operator `+`(timestamp, int): `add_impl(x, seconds).map(Into)`
(`src/packages/time_basic.rs` lines 200-203). -/
def timeAdd (x : Nat) (seconds : Int) : Option (Except String Dynamic) :=
  (add_impl x seconds).map (fun r => r.map Dynamic.timestamp)

/-- Registered operator `-`(timestamp, int): `subtract_impl(x, seconds).map(Into)`
(`src/packages/time_basic.rs` lines 209-212). -/
def timeSubtract (x : Nat) (seconds : Int) : Option (Except String Dynamic) :=
  (subtract_impl x seconds).map (fun r => r.map Dynamic.timestamp)

/-- `add_impl` terminates and returns a value (Ok or a typed arithmetic
error) on the given input, for some finite amount of fuel. -/
def addTerminates (x : Nat) (seconds : Int) : Prop :=
  ∃ fuel, (timeOpImpl fuel true x seconds).isSome

/-! ## Expressions and statements (`src/ast.rs`)

The `Stmt` and `Expr` enums of `src/ast.rs` are large; we embed the fragment
exercised by the claims, dropping the `Position` payloads (they do not affect
values).  `Stmt::Assignment` carries the operator string; we split the two
operator strings that appear in the claims (`=` and `+=`) into two
constructors.  `execCustom` embeds `Stmt::Expr(Expr::Custom(..))` as produced
by the custom syntax `exec | $ident$ | -> $block$ while $expr$` registered in
`src/tests/syntax.rs`, carrying its three parsed inputs. -/

mutual

inductive Expr where
  | intLit (i : Int) : Expr
  | var (name : String) : Expr
  | lt (lhs rhs : Expr) : Expr
  | fnCall (name : String) (args : List Expr) : Expr

inductive Stmt where
  | letDecl (name : String) (e : Expr) : Stmt
  | constDecl (name : String) (e : Expr) : Stmt
  | assign (name : String) (e : Expr) : Stmt
  | plusAssign (name : String) (e : Expr) : Stmt
  | exprStmt (e : Expr) : Stmt
  | execCustom (varName : String) (body : Stmt) (cond : Expr) : Stmt

end

/-- Function access mode (`FnAccess` in `src/ast.rs`): `pub` embeds
`FnAccess::Public`, `priv` embeds `FnAccess::Private`. -/
inductive FnAccess where
  | pub : FnAccess
  | priv : FnAccess
  deriving DecidableEq

/-- A scripted function (`ScriptFnDef` in `src/ast.rs`): body, name, access
mode and parameter names (`lib` and `externals` are not needed by the
claims). -/
structure ScriptFnDef where
  body : Stmt
  name : String
  access : FnAccess
  params : List String

/-! ## Module (spec §4.5)

`module.rs` is not part of the sources.  Per the spec, a Module stores
script-defined functions keyed by `(name, arity)` (the script hash), merge
takes a filter predicate `(access, name, arity) → bool`, and on merge
collisions overwrite.  We model the function slice as an association list
keyed by `(name, arity)`; a HashMap in the source, it never holds two
functions with the same key, which the `Module.WF` predicate captures. -/

abbrev Module := List ScriptFnDef

/-- The script-hash key of a function: `(name, arity)` (spec §4.5). -/
def fnKey (f : ScriptFnDef) : String × Nat := (f.name, f.params.length)

/-- Modelled from the spec: module invariant — a Module, being keyed storage,
holds at most one function per `(name, arity)` key. -/
def Module.WF (m : Module) : Prop := (m.map fnKey).Nodup

instance (m : Module) : Decidable m.WF := by
  unfold Module.WF
  infer_instance

/-- Modelled from the spec: look a function up by its `(name, arity)` key. -/
def Module.findFn (m : Module) (name : String) (arity : Nat) :
    Option ScriptFnDef :=
  m.find? (fun f => f.name == name && f.params.length == arity)

/-- Modelled from the spec: `Module::get_script_fn(name, num_params,
public_only)` — the lookup used by `call_fn_dynamic_raw`
(`src/engine_api.rs` line 1619) and by dispatch (spec §4.6: "If found and the
caller is allowed to access it (public, or private but within the same
compilation unit)"). -/
def Module.get_script_fn (m : Module) (name : String) (arity : Nat)
    (publicOnly : Bool) : Option ScriptFnDef :=
  match m.findFn name arity with
  | some f => if publicOnly && f.access == FnAccess.priv then none else some f
  | none => none

/-- Modelled from the spec: store a function under its `(name, arity)` key,
overwriting any existing function with the same key (HashMap insert). -/
def Module.setFn : Module → ScriptFnDef → Module
  | [], f => [f]
  | g :: rest, f =>
      if fnKey g = fnKey f then f :: rest else g :: Module.setFn rest f

/-- Modelled from the spec: `Module::merge_filtered` — add every function of
`other` that passes the filter predicate `(access, name, arity) → bool`,
overwriting on key collision (spec §4.5: "Modules can merge with a filter
predicate `(access, name, arity) → bool`. On merge, collisions overwrite."). -/
def Module.merge_filtered (m other : Module)
    (filter : FnAccess → String → Nat → Bool) : Module :=
  other.foldl
    (fun acc f =>
      if filter f.access f.name f.params.length then acc.setFn f else acc)
    m

/-! ## AST (`src/ast.rs`)

`pub struct AST(Vec<Stmt>, Module)` — global statements plus the Module of
script-defined functions. -/

structure AST where
  statements : List Stmt
  lib : Module

/-- `AST::merge_filtered` (`src/ast.rs` lines 369-392), including the
four-way emptiness match on the two statement lists. -/
def AST.merge_filtered (a other : AST)
    (filter : FnAccess → String → Nat → Bool) : AST :=
  let ast :=
    match a.statements.isEmpty, other.statements.isEmpty with
    | false, false => a.statements ++ other.statements
    | false, true => a.statements
    | true, false => other.statements
    | true, true => []
  { statements := ast
    lib := a.lib.merge_filtered other.lib filter }

/-- `AST::merge` (`src/ast.rs` lines 260-263): `merge_filtered` with an
all-accepting filter. -/
def AST.merge (a other : AST) : AST :=
  a.merge_filtered other (fun _ _ _ => true)

/-- `AST::combine_filtered` (`src/ast.rs` lines 444-454): statements of
`other` are appended, functions merged under the filter. -/
def AST.combine_filtered (a other : AST)
    (filter : FnAccess → String → Nat → Bool) : AST :=
  { statements := a.statements ++ other.statements
    lib := a.lib.merge_filtered other.lib filter }

/-- `AST::combine` (`src/ast.rs` lines 313-316): `combine_filtered` with an
all-accepting filter. -/
def AST.combine (a other : AST) : AST :=
  a.combine_filtered other (fun _ _ _ => true)

/-- `AST::clone_functions_only_filtered` (`src/ast.rs` lines 195-202): merge
this AST's functions into a fresh default Module; no statements. -/
def AST.clone_functions_only_filtered (a : AST)
    (filter : FnAccess → String → Nat → Bool) : AST :=
  { statements := []
    lib := Module.merge_filtered [] a.lib filter }

/-- `AST::clone_functions_only` (`src/ast.rs` lines 183-187). -/
def AST.clone_functions_only (a : AST) : AST :=
  a.clone_functions_only_filtered (fun _ _ _ => true)

/-- `AST::clone_statements_only` (`src/ast.rs` lines 204-209). -/
def AST.clone_statements_only (a : AST) : AST :=
  { statements := a.statements, lib := [] }

/-! ## Scope (spec §4.4)

`scope.rs` is not part of the sources.  Modelled from the spec: an ordered
stack of frames `(name, Value, kind ∈ {Mutable, Constant})`, looked up from
the top (innermost shadowing).  The head of the list is the top of the
stack. -/

structure ScopeEntry where
  name : String
  value : Dynamic
  isConst : Bool

abbrev Scope := List ScopeEntry

/-- Modelled from the spec: scan the stack from the top for a name. -/
def scopeLookup (scope : Scope) (name : String) : Option ScopeEntry :=
  scope.find? (fun e => e.name == name)

/-! ## Errors (spec §6 "Error surface")

`result.rs` / `parse_error.rs` are not part of the sources; the variants are
modelled from the spec's error taxonomy, restricted to those the claims
mention.  `fuelExhausted` is an artifact of the fuelled evaluator and
corresponds to non-termination of the source. -/

inductive ParseErrorType where
  | assignmentToConstant (name : String)
  deriving DecidableEq

inductive EvalErr where
  | errorParsing (err : ParseErrorType)
  | errorVariableNotFound (name : String)
  | errorFunctionNotFound (name : String)
  | errorAssignmentToConstant (name : String)
  | errorMismatchOutputType (expected actual : String)
  | errorMismatchDataType (expected actual : String)
  | errorArithmetic (msg : String)
  | fuelExhausted
  deriving DecidableEq

/-- Modelled from the spec: assign through the scope stack — the first frame
matching the name receives the value; a `Constant` frame rejects the
assignment with `ErrorAssignmentToConstant`; an absent name is
`ErrorVariableNotFound` (spec §4.4, §6). -/
def scopeAssign : Scope → String → Dynamic → Except EvalErr Scope
  | [], name, _ => .error (.errorVariableNotFound name)
  | e :: rest, name, v =>
      if e.name = name then
        if e.isConst then .error (.errorAssignmentToConstant name)
        else .ok ({ e with value := v } :: rest)
      else
        (scopeAssign rest name v).map (e :: ·)

/-! ## Evaluator (spec §4.6, §4.7)

`engine.rs` / `fn_call.rs` are not part of the sources; the tree-walking
evaluator below is modelled from the spec, restricted to the language
fragment above.  The evaluator is indexed by fuel; `fuelExhausted` stands for
a computation of the source that has not returned within the given depth.
Every recursion step consumes one unit of fuel except `execFnCall`, which is
plain dispatch and passes its fuel through. -/

/-- `type_of` names of the built-in value types (spec §3, §6). -/
def dynTypeName : Dynamic → String
  | .unit => "()"
  | .bool _ => "bool"
  | .int _ => "i64"
  | .char _ => "char"
  | .str _ => "string"
  | .fnPtr _ _ => "Fn"
  | .timestamp _ => "timestamp"

/-- `Dynamic::as_bool`: succeeds only on the Bool variant. -/
def asBool : Dynamic → Option Bool
  | .bool b => some b
  | _ => none

/-- Modelled from the spec: checked 64-bit integer addition, used by the
`+=` operator on INT (overflow yields `ErrorArithmetic`; the default build
has arithmetic checking on). -/
def checkedAddInt (a b : Int) : Except EvalErr Int :=
  let r := a + b
  if intMin ≤ r ∧ r ≤ intMax then .ok r
  else
    .error (.errorArithmetic
      ("Integer overflow: " ++ toString a ++ " + " ++ toString b))

/-- The evaluator at one fuel level: the five mutually recursive evaluation
functions, packaged so the fuel tower below is a plain structural recursion
on the fuel (one level per unit of fuel). -/
structure Evaluator where
  expr : Module → Scope → Expr → Except EvalErr Dynamic
  exprList : Module → Scope → List Expr → Except EvalErr (List Dynamic)
  stmt : Module → Scope → Stmt → Except EvalErr (Scope × Dynamic)
  stmts : Module → Scope → List Stmt → Except EvalErr (Scope × Dynamic)
  loop : Module → Scope → Stmt → Expr → Except EvalErr Scope

/-- Modelled from the spec: `call_script_fn` — push the parameters bound to
the arguments onto the given scope, evaluate the body with the given
evaluator, return its value (the frames pushed for the call are discarded
afterwards). -/
def Evaluator.callScriptFn (ev : Evaluator) (lib : Module) (scope : Scope)
    (fndef : ScriptFnDef) (args : List Dynamic) : Except EvalErr Dynamic := do
  let callScope :=
    (fndef.params.zip args).foldl
      (fun sc p => ⟨p.1, p.2, false⟩ :: sc) scope
  let p ← ev.stmt lib callScope fndef.body
  .ok p.2

/-- Modelled from the spec: `exec_fn_call` dispatch (§4.6) — resolve a script
function by the script hash `(name, hashArity)` in the library, subject to
the caller's access: `pubOnly = true` resolves public functions only, while
`pubOnly = false` also reaches private functions, the access a caller inside
the same compilation unit has (§4.6: "public, or private but within the same
compilation unit").  When a `this` binding is present it rides at the front
of the argument list and the remaining arguments bind to the parameters.
Native functions are outside the modelled fragment, so an unresolved call is
`ErrorFunctionNotFound`. -/
def Evaluator.execFnCall (ev : Evaluator) (lib : Module) (scope : Scope)
    (name : String) (hashArity : Nat) (args : List Dynamic)
    (hasThis : Bool) (pubOnly : Bool) : Except EvalErr Dynamic :=
  match lib.get_script_fn name hashArity pubOnly with
  | some fndef =>
      if hasThis then
        match args with
        | thisVal :: rest =>
            ev.callScriptFn lib (⟨"this", thisVal, false⟩ :: scope)
              fndef rest
        | [] => ev.callScriptFn lib scope fndef args
      else ev.callScriptFn lib scope fndef args
  | none => .error (.errorFunctionNotFound name)

/-- The evaluator with no fuel left: every evaluation reports fuel
exhaustion (the source would still be running). -/
def failEvaluator : Evaluator where
  expr := fun _ _ _ => .error .fuelExhausted
  exprList := fun _ _ _ => .error .fuelExhausted
  stmt := fun _ _ _ => .error .fuelExhausted
  stmts := fun _ _ _ => .error .fuelExhausted
  loop := fun _ _ _ _ => .error .fuelExhausted

/-- Modelled from the spec: one step of the tree-walking evaluator (§4.7),
with every recursive evaluation delegated to the previous fuel level.

* expressions: `lt` embeds the operator call `<` on INT (operator calls are
  native-only, §4.6); `fnCall` computes the script hash `(name, args.len)`
  over the left-to-right evaluated arguments and dispatches (§4.6) as a
  caller inside the same compilation unit (`pubOnly = false`), so the
  library's private functions are reachable from its own statements;
* statements: declarations push a frame and yield `()`; assignment writes
  through the scope stack; the value of a statement list is the value of its
  last statement;
* `execCustom` and `loop` are the evaluator callback registered for the
  custom syntax in `src/tests/syntax.rs` (lines 20-53): push the parsed
  identifier with value 0, then repeatedly evaluate the block and the
  condition until the condition is false. -/
def evalStep (prev : Evaluator) : Evaluator where
  expr := fun lib scope e =>
    match e with
    | .intLit i => .ok (.int i)
    | .var name =>
        match scopeLookup scope name with
        | some entry => .ok entry.value
        | none => .error (.errorVariableNotFound name)
    | .lt lhs rhs => do
        let a ← prev.expr lib scope lhs
        let b ← prev.expr lib scope rhs
        match a, b with
        | .int x, .int y => .ok (.bool (decide (x < y)))
        | _, _ => .error (.errorFunctionNotFound "<")
    | .fnCall name args => do
        let vs ← prev.exprList lib scope args
        prev.execFnCall lib scope name vs.length vs false false
  exprList := fun lib scope es =>
    match es with
    | [] => .ok []
    | e :: rest => do
        let v ← prev.expr lib scope e
        let vs ← prev.exprList lib scope rest
        .ok (v :: vs)
  stmt := fun lib scope s =>
    match s with
    | .letDecl name e => do
        let v ← prev.expr lib scope e
        .ok (⟨name, v, false⟩ :: scope, .unit)
    | .constDecl name e => do
        let v ← prev.expr lib scope e
        .ok (⟨name, v, true⟩ :: scope, .unit)
    | .assign name e => do
        let v ← prev.expr lib scope e
        let scope2 ← scopeAssign scope name v
        .ok (scope2, .unit)
    | .plusAssign name e => do
        let v ← prev.expr lib scope e
        match scopeLookup scope name with
        | none => .error (.errorVariableNotFound name)
        | some entry =>
            match entry.value, v with
            | .int a, .int b => do
                let r ← checkedAddInt a b
                let scope2 ← scopeAssign scope name (.int r)
                .ok (scope2, .unit)
            | _, _ => .error (.errorFunctionNotFound "+=")
    | .exprStmt e => do
        let v ← prev.expr lib scope e
        .ok (scope, v)
    | .execCustom varName body cond => do
        let scope2 ←
          prev.loop lib (⟨varName, .int 0, false⟩ :: scope) body cond
        .ok (scope2, .unit)
  stmts := fun lib scope stmts =>
    match stmts with
    | [] => .ok (scope, .unit)
    | s :: rest => do
        let p ← prev.stmt lib scope s
        match rest with
        | [] => .ok p
        | _ => prev.stmts lib p.1 rest
  loop := fun lib scope body cond => do
    let p ← prev.stmt lib scope body
    let c ← prev.expr lib p.1 cond
    match asBool c with
    | none => .error (.errorMismatchDataType "bool" (dynTypeName c))
    | some true => prev.loop lib p.1 body cond
    | some false => .ok p.1

/-- The fuelled evaluator: `fuel` levels of `evalStep` over the failing
base. -/
def evaluator : Nat → Evaluator
  | 0 => failEvaluator
  | fuel + 1 => evalStep (evaluator fuel)

/-- Expression evaluation at a given fuel. -/
def evalExpr (fuel : Nat) (lib : Module) (scope : Scope) (e : Expr) :
    Except EvalErr Dynamic :=
  (evaluator fuel).expr lib scope e

/-- Argument-list evaluation at a given fuel. -/
def evalExprList (fuel : Nat) (lib : Module) (scope : Scope)
    (es : List Expr) : Except EvalErr (List Dynamic) :=
  (evaluator fuel).exprList lib scope es

/-- Statement evaluation at a given fuel. -/
def evalStmt (fuel : Nat) (lib : Module) (scope : Scope) (s : Stmt) :
    Except EvalErr (Scope × Dynamic) :=
  (evaluator fuel).stmt lib scope s

/-- Statement-list evaluation at a given fuel. -/
def evalStmts (fuel : Nat) (lib : Module) (scope : Scope)
    (ss : List Stmt) : Except EvalErr (Scope × Dynamic) :=
  (evaluator fuel).stmts lib scope ss

/-- Function-call dispatch at a given fuel. -/
def execFnCall (fuel : Nat) (lib : Module) (scope : Scope) (name : String)
    (hashArity : Nat) (args : List Dynamic) (hasThis : Bool)
    (pubOnly : Bool) : Except EvalErr Dynamic :=
  (evaluator fuel).execFnCall lib scope name hashArity args hasThis pubOnly

/-! ## Compilation pipeline (spec §4.2, §4.4) -/

/-- Find the constancy flag recorded for a name in the parser's frame list. -/
def lookupFlag (env : List (String × Bool)) (name : String) : Option Bool :=
  (env.find? (fun p => p.1 == name)).map (·.2)

/-- Modelled from the spec: the parser's static constant-assignment check
(spec §4.4: "`Constant` frames reject assignment at parse or eval time
depending on when the assignment can be statically identified";
`src/tests/constants.rs` lines 9-20 show the static case surfacing as
`ErrorParsing(AssignmentToConstant)`).  The parser tracks declared variables
with their constancy; an assignment whose target is statically known to be
constant is reported, by name.  Host-scope constants are not consulted
(`src/tests/constants.rs` lines 25-38 show those failing only at eval time).
Returns the reported name (if any) and the updated frame list. -/
def compileCheckStmt :
    List (String × Bool) → Stmt → Option String × List (String × Bool)
  | env, .letDecl name _ => (none, (name, false) :: env)
  | env, .constDecl name _ => (none, (name, true) :: env)
  | env, .assign name _ =>
      (match lookupFlag env name with
       | some true => some name
       | _ => none, env)
  | env, .plusAssign name _ =>
      (match lookupFlag env name with
       | some true => some name
       | _ => none, env)
  | env, .exprStmt _ => (none, env)
  | env, .execCustom _ body _ => ((compileCheckStmt env body).1, env)

/-- Modelled from the spec: run the static check over a whole script,
reporting the first statically identified assignment to a constant. -/
def compileCheck (stmts : List Stmt) : Option String :=
  (stmts.foldl
    (fun acc s =>
      match acc.1 with
      | some _ => acc
      | none => compileCheckStmt acc.2 s)
    ((none : Option String), ([] : List (String × Bool)))).1

/-- Modelled from the spec: `Engine::eval_with_scope` at the Dynamic level —
compile (here: the static constant check; a statically identified assignment
to a constant surfaces as `ErrorParsing(AssignmentToConstant)`), then
evaluate the statements against the scope and return the final value. -/
def runScript (fuel : Nat) (scope : Scope) (lib : Module)
    (stmts : List Stmt) : Except EvalErr Dynamic :=
  match compileCheck stmts with
  | some name => .error (.errorParsing (.assignmentToConstant name))
  | none => (evalStmts fuel lib scope stmts).map (·.2)

/-! ## Typed result extraction (`src/engine_api.rs`) -/

/-- The requested Rust result type `T` of `eval_ast_with_scope::<T>` /
`call_fn::<T>`, one per embedded `Dynamic` variant. -/
inductive Ty where
  | tUnit
  | tBool
  | tInt
  | tChar
  | tString
  | tFnPtr
  | tTimestamp
  deriving DecidableEq

/-- The tag of a value. -/
def dynTy : Dynamic → Ty
  | .unit => .tUnit
  | .bool _ => .tBool
  | .int _ => .tInt
  | .char _ => .tChar
  | .str _ => .tString
  | .fnPtr _ _ => .tFnPtr
  | .timestamp _ => .tTimestamp

/-- `map_type_name(type_name::<T>())`: the display name of a requested
type. -/
def tyName : Ty → String
  | .tUnit => "()"
  | .tBool => "bool"
  | .tInt => "i64"
  | .tChar => "char"
  | .tString => "string"
  | .tFnPtr => "Fn"
  | .tTimestamp => "timestamp"

/-- `Dynamic::try_cast::<T>`: succeeds exactly when the value's tag is the
requested type. -/
def try_cast (ty : Ty) (d : Dynamic) : Option Dynamic :=
  if dynTy d = ty then some d else none

/-- `Engine::eval_ast_with_scope::<T>` (`src/engine_api.rs` lines
1379-1398): evaluate the AST's statements against the scope with the AST's
library, then `try_cast` the result to `T`, reporting
`ErrorMismatchOutputType(expected, actual)` when the cast fails. -/
def eval_ast_with_scope (ty : Ty) (fuel : Nat) (scope : Scope) (ast : AST) :
    Except EvalErr Dynamic :=
  match evalStmts fuel ast.lib scope ast.statements with
  | .error e => .error e
  | .ok (_, result) =>
      match try_cast ty result with
      | some v => .ok v
      | none => .error (.errorMismatchOutputType (tyName ty)
          (dynTypeName result))

/-- `Engine::call_fn_dynamic_raw` (`src/engine_api.rs` lines 1608-1640):
resolve the named script function in the library by `(name, args.len)`
(public only), then run it on the scope; an absent function is
`ErrorFunctionNotFound(name)`. -/
def call_fn_dynamic_raw (fuel : Nat) (scope : Scope) (lib : Module)
    (name : String) (args : List Dynamic) : Except EvalErr Dynamic :=
  match lib.get_script_fn name args.length true with
  | some fndef => (evaluator fuel).callScriptFn lib scope fndef args
  | none => .error (.errorFunctionNotFound name)

/-- `Engine::call_fn::<T>` (`src/engine_api.rs` lines 1510-1534):
`call_fn_dynamic_raw` on the AST's library, then `try_cast` the result to
`T`, reporting `ErrorMismatchOutputType(expected, actual)` when the cast
fails. -/
def call_fn (ty : Ty) (fuel : Nat) (scope : Scope) (ast : AST)
    (name : String) (args : List Dynamic) : Except EvalErr Dynamic :=
  match call_fn_dynamic_raw fuel scope ast.lib name args with
  | .error e => .error e
  | .ok result =>
      match try_cast ty result with
      | some v => .ok v
      | none => .error (.errorMismatchOutputType (tyName ty)
          (dynTypeName result))

/-! ## Function pointers (`src/fn_native.rs`) -/

/-- `pub struct FnPtr(ImmutableString, StaticVec<Dynamic>)`: a function name
plus curried argument values. -/
structure FnPtr where
  name : String
  curry : List Dynamic

/-- `FnPtr::call_dynamic` (`src/fn_native.rs` lines 182-224).  The argument
buffer is consumed: `curry().iter().cloned().chain(arg_values.iter_mut()
.map(mem::take))` drains every supplied argument, leaving `()` behind in the
caller's buffer.  The script hash is computed over the name and the length of
curry-plus-supplied arguments, before any `this` is inserted at the front.
The call executes against a fresh scope (`&mut Default::default()`) and
passes `true` for `pub_only` to `exec_fn_call` (line 218: "If this function
is a script-defined function, it must not be marked private").  Returns the
call result together with the caller's buffer as the call leaves it. -/
def FnPtr.call_dynamic (fuel : Nat) (lib : Module) (p : FnPtr)
    (this_ptr : Option Dynamic) (arg_values : List Dynamic) :
    Except EvalErr Dynamic × List Dynamic :=
  let fn_name := p.name
  let args_data := p.curry ++ arg_values
  let consumed := arg_values.map (fun _ => Dynamic.unit)
  let has_this := this_ptr.isSome
  let hash_script := args_data.length
  let args :=
    match this_ptr with
    | some obj => obj :: args_data
    | none => args_data
  (execFnCall fuel lib [] fn_name hash_script args has_this true, consumed)

/-- Modelled from the spec: `is_valid_identifier` (`token.rs` is not in the
sources) — a non-empty string whose first character is a letter or `_` and
whose remaining characters are letters, digits or `_`. -/
def is_valid_identifier (s : String) : Bool :=
  match s.toList with
  | [] => false
  | c :: rest =>
      (c.isAlpha || c == '_') && rest.all (fun ch => ch.isAlphanum || ch == '_')

/-- `impl TryFrom<ImmutableString> for FnPtr` (`src/fn_native.rs` lines
234-245): a valid identifier becomes a pointer with that name and a default
(empty) curry list; anything else is `ErrorFunctionNotFound(value)`.  The
`TryFrom<String>` and `TryFrom<&str>` impls (lines 247-265) convert to an
`ImmutableString` and delegate to this function. -/
def FnPtr.try_from (value : String) : Except EvalErr FnPtr :=
  if is_valid_identifier value then .ok ⟨value, []⟩
  else .error (.errorFunctionNotFound value)

/-! ## Indexer registration (`src/engine_api.rs`) -/

/-- The argument type `T` of a registered indexer callback, as compared by
`TypeId` in `register_indexer_get` / `register_indexer_set`. -/
inductive RType where
  | array
  | map
  | string
  | strRef
  | immutableString
  | custom (name : String)
  deriving DecidableEq

/-- Outcome of a registration call: either the indexer function is recorded
in the global module under the engine-internal name, or the call panics. -/
inductive RegisterOutcome where
  | registered (fnName : String)
  | panicked (msg : String)
  deriving DecidableEq

/-- Modelled from the spec: the engine-internal name of the index getter
(spec §6: "Indexer get/set are by fixed names (engine-internal)";
`engine.rs`, which holds the constant, is not in the sources). -/
def FN_IDX_GET : String := "index$get$"

/-- Modelled from the spec: the engine-internal name of the index setter. -/
def FN_IDX_SET : String := "index$set$"

/-- `Engine::register_indexer_get` (`src/engine_api.rs` lines 481-507): the
chain of `TypeId` checks panics for `Array`, `Map` and each string type;
otherwise the callback is registered under `FN_IDX_GET`. -/
def register_indexer_get (t : RType) : RegisterOutcome :=
  if t = .array then .panicked "Cannot register indexer for arrays."
  else if t = .map then .panicked "Cannot register indexer for object maps."
  else if t = .string || t = .strRef || t = .immutableString then
    .panicked "Cannot register indexer for strings."
  else .registered FN_IDX_GET

/-- `Engine::register_indexer_set` (`src/engine_api.rs` lines 621-647): the
same `TypeId` checks, registering under `FN_IDX_SET`. -/
def register_indexer_set (t : RType) : RegisterOutcome :=
  if t = .array then .panicked "Cannot register indexer for arrays."
  else if t = .map then .panicked "Cannot register indexer for object maps."
  else if t = .string || t = .strRef || t = .immutableString then
    .panicked "Cannot register indexer for strings."
  else .registered FN_IDX_SET

/-- A registration outcome that is a panic. -/
def RegisterOutcome.isPanic : RegisterOutcome → Bool
  | .panicked _ => true
  | .registered _ => false

/-- The built-in container types of the spec (§6): arrays, object maps and
the string types. -/
def RType.isBuiltinContainer : RType → Bool
  | .array => true
  | .map => true
  | .string => true
  | .strRef => true
  | .immutableString => true
  | .custom _ => false

/-! ## Module lemmas -/

theorem fnKey_eq_iff (g : ScriptFnDef) (name : String) (arity : Nat) :
    fnKey g = (name, arity) ↔ g.name = name ∧ g.params.length = arity := by
  simp [fnKey, Prod.ext_iff]

theorem findFn_pred_eq (g : ScriptFnDef) (name : String) (arity : Nat) :
    (g.name == name && g.params.length == arity) = true ↔
      fnKey g = (name, arity) := by
  simp [fnKey_eq_iff]

theorem findFn_nil (name : String) (arity : Nat) :
    Module.findFn [] name arity = none := rfl

theorem findFn_cons (g : ScriptFnDef) (m : Module) (name : String)
    (arity : Nat) :
    Module.findFn (g :: m) name arity =
      if fnKey g = (name, arity) then some g
      else Module.findFn m name arity := by
  by_cases h : fnKey g = (name, arity)
  · rw [if_pos h]
    exact List.find?_cons_of_pos _ ((findFn_pred_eq g name arity).mpr h)
  · rw [if_neg h]
    exact List.find?_cons_of_neg _ (by
      simp only [findFn_pred_eq]
      exact h)

theorem findFn_eq_none_of_not_mem (m : Module) (name : String) (arity : Nat)
    (h : (name, arity) ∉ m.map fnKey) : Module.findFn m name arity = none := by
  induction m with
  | nil => rfl
  | cons g rest ih =>
      rw [findFn_cons, if_neg, ih]
      · intro hc
        exact h (by simp [hc])
      · intro hc
        exact h (by simp [hc])

theorem findFn_setFn (m : Module) (f : ScriptFnDef) (name : String)
    (arity : Nat) :
    Module.findFn (m.setFn f) name arity =
      if fnKey f = (name, arity) then some f
      else Module.findFn m name arity := by
  induction m with
  | nil =>
      rw [Module.setFn, findFn_cons, findFn_nil]
  | cons g rest ih =>
      rw [Module.setFn]
      by_cases hgf : fnKey g = fnKey f
      · rw [if_pos hgf, findFn_cons, findFn_cons]
        by_cases hf : fnKey f = (name, arity)
        · rw [if_pos hf, if_pos hf]
        · rw [if_neg hf, if_neg hf, if_neg (hgf ▸ hf)]
      · rw [if_neg hgf, findFn_cons, findFn_cons, ih]
        by_cases hg : fnKey g = (name, arity)
        · rw [if_pos hg, if_neg (fun hfk => hgf (hg.trans hfk.symm)), if_pos hg]
        · rw [if_neg hg, if_neg hg]

theorem findFn_merge_all (b : Module) (a : Module) (hwf : Module.WF b)
    (name : String) (arity : Nat) :
    Module.findFn (a.merge_filtered b (fun _ _ _ => true)) name arity =
      (match Module.findFn b name arity with
       | some f => some f
       | none => Module.findFn a name arity) := by
  induction b generalizing a with
  | nil => rfl
  | cons f rest ih =>
      have hnotin : fnKey f ∉ rest.map fnKey := by
        have := hwf
        simp only [Module.WF, List.map_cons, List.nodup_cons] at this
        exact this.1
      have hrest : Module.WF rest := by
        have := hwf
        simp only [Module.WF, List.map_cons, List.nodup_cons] at this
        exact this.2
      show Module.findFn
        (Module.merge_filtered (a.setFn f) rest (fun _ _ _ => true))
          name arity = _
      rw [ih (a.setFn f) hrest, findFn_cons, findFn_setFn]
      by_cases hf : fnKey f = (name, arity)
      · rw [if_pos hf, if_pos hf,
          findFn_eq_none_of_not_mem rest name arity (hf ▸ hnotin)]
      · rw [if_neg hf, if_neg hf]

theorem setFn_fresh (m : Module) (f : ScriptFnDef)
    (h : fnKey f ∉ m.map fnKey) : m.setFn f = m ++ [f] := by
  induction m with
  | nil => rfl
  | cons g rest ih =>
      have h1 : ¬ (fnKey g = fnKey f) := by
        intro hc
        apply h
        rw [List.map_cons, ← hc]
        exact List.mem_cons_self _ _
      have h2 : fnKey f ∉ rest.map fnKey := by
        intro hc
        exact h (by simp [hc])
      rw [Module.setFn, if_neg h1, ih h2, List.cons_append]

theorem merge_all_fresh (b : Module) (a : Module) (hwf : Module.WF b)
    (hdisj : ∀ k, k ∈ b.map fnKey → k ∉ a.map fnKey) :
    a.merge_filtered b (fun _ _ _ => true) = a ++ b := by
  induction b generalizing a with
  | nil => simp [Module.merge_filtered]
  | cons f rest ih =>
      have hnotin : fnKey f ∉ rest.map fnKey := by
        have := hwf
        simp only [Module.WF, List.map_cons, List.nodup_cons] at this
        exact this.1
      have hrest : Module.WF rest := by
        have := hwf
        simp only [Module.WF, List.map_cons, List.nodup_cons] at this
        exact this.2
      have hfa : fnKey f ∉ a.map fnKey := hdisj (fnKey f) (by simp)
      show Module.merge_filtered (a.setFn f) rest (fun _ _ _ => true) = _
      rw [setFn_fresh a f hfa, ih (a ++ [f]) hrest, List.append_assoc]
      · rfl
      · intro k hk
        simp only [List.map_append, List.mem_append] at *
        rintro (hka | hkf)
        · exact hdisj k (by simp [hk]) hka
        · simp at hkf
          exact hnotin (hkf ▸ hk)

theorem merge_all_empty (b : Module) (hwf : Module.WF b) :
    Module.merge_filtered [] b (fun _ _ _ => true) = b := by
  have := merge_all_fresh b [] hwf (by intro k _; simp)
  simpa using this

/-! ## Claim theorems C1-C9 -/

/-- C1: For every pair of ASTs `a` and `b` (with `b`'s library holding at
most one function per `(name, arity)` key, as keyed Module storage does),
`merge(a, b)` and the consuming variant `combine(a, b)` yield an AST whose
statement list equals `a`'s statements followed by `b`'s, and whose library
resolves every `(name, arity)` key to `b`'s function when `b` has one —
functions of `b` override same-keyed functions of `a` — and to `a`'s
function otherwise. -/
theorem c1_merge_combine (a b : AST) (hwf : Module.WF b.lib) :
    (a.merge b).statements = a.statements ++ b.statements ∧
    (a.combine b).statements = a.statements ++ b.statements ∧
    (∀ name arity,
      Module.findFn (a.merge b).lib name arity =
        (match Module.findFn b.lib name arity with
         | some f => some f
         | none => Module.findFn a.lib name arity)) ∧
    (∀ name arity,
      Module.findFn (a.combine b).lib name arity =
        (match Module.findFn b.lib name arity with
         | some f => some f
         | none => Module.findFn a.lib name arity)) := by
  refine ⟨?_, rfl, ?_, ?_⟩
  · show (AST.merge_filtered a b _).statements = _
    simp only [AST.merge_filtered]
    rcases a.statements with _ | ⟨s, ss⟩ <;>
      rcases b.statements with _ | ⟨t, ts⟩ <;> simp [List.isEmpty]
  · intro name arity
    exact findFn_merge_all b.lib a.lib hwf name arity
  · intro name arity
    exact findFn_merge_all b.lib a.lib hwf name arity

/-- C1 (witness): merging two one-function libraries with the same
`(name, arity)` key keeps the second AST's definition. -/
theorem c1_witness :
    Module.findFn
      ((AST.mk [Stmt.exprStmt (Expr.intLit 1)]
          [⟨Stmt.exprStmt (Expr.intLit 10), "foo", FnAccess.pub, ["x"]⟩]).merge
        (AST.mk [Stmt.exprStmt (Expr.intLit 2)]
          [⟨Stmt.exprStmt (Expr.intLit 20), "foo", FnAccess.pub,
            ["y"]⟩])).lib "foo" 1 =
      some ⟨Stmt.exprStmt (Expr.intLit 20), "foo", FnAccess.pub, ["y"]⟩ :=
  (c1_merge_combine _ _ (by decide)).2.2.1 "foo" 1

theorem get_script_fn_false_of_true (m : Module) (name : String)
    (arity : Nat) (f : ScriptFnDef)
    (h : m.get_script_fn name arity true = some f) :
    m.get_script_fn name arity false = some f := by
  rcases hfind : m.findFn name arity with _ | g
  · simp [Module.get_script_fn, hfind] at h
  · by_cases hacc : g.access = FnAccess.priv
    · simp [Module.get_script_fn, hfind, beq_iff_eq, hacc] at h
    · simp [Module.get_script_fn, hfind, beq_iff_eq, hacc] at h
      simp [Module.get_script_fn, hfind, h]

/-- C2 (counterexample): for a private scripted function the two paths
diverge — directly evaluating the call expression `secret()` against the
defining library runs the function (same compilation unit, spec §4.6) and
yields Int(42), while the host API `call_fn_dynamic_raw` (the dynamic core of
`call_fn`), which resolves public functions only (`src/engine_api.rs` line
1619), fails with `ErrorFunctionNotFound("secret")` — so the claim that they
yield equal Values for every scripted function defined in the AST is
false. -/
theorem c2_counterexample :
    evalExpr 9
        [⟨Stmt.exprStmt (Expr.intLit 42), "secret", FnAccess.priv, []⟩] []
        (.fnCall "secret" []) = .ok (.int 42) ∧
    call_fn_dynamic_raw 8 []
        [⟨Stmt.exprStmt (Expr.intLit 42), "secret", FnAccess.priv, []⟩]
        "secret" [] = .error (.errorFunctionNotFound "secret") ∧
    (Except.ok (Dynamic.int 42) : Except EvalErr Dynamic) ≠
      .error (.errorFunctionNotFound "secret") :=
  ⟨rfl, rfl, fun h => Except.noConfusion h⟩

/-- C2 (amended): when the arguments of a call expression evaluate to the
values `vs`: for every **public** scripted function resolvable under the key
`(name, vs.length)`, directly evaluating the call expression
`name(a1, …, an)` against a scope and library yields the same Value as the
host API `call_fn_dynamic_raw` (the dynamic core of `call_fn`) invoked on the
same scope, library, name and values — both resolve the same function
definition; for a **private** function under that key, direct evaluation
within the defining AST still runs the definition (same compilation unit,
spec §4.6) while `call_fn_dynamic_raw`, resolving public-only, fails with
`ErrorFunctionNotFound(name)`. -/
theorem c2_call_fn_eq_direct_eval (fuel : Nat) (lib : Module) (scope : Scope)
    (name : String) (es : List Expr) (vs : List Dynamic)
    (fndef : ScriptFnDef)
    (hargs : evalExprList fuel lib scope es = .ok vs) :
    (lib.get_script_fn name vs.length true = some fndef →
      evalExpr (fuel + 1) lib scope (.fnCall name es) =
        call_fn_dynamic_raw fuel scope lib name vs) ∧
    (lib.get_script_fn name vs.length false = some fndef →
      fndef.access = FnAccess.priv →
      evalExpr (fuel + 1) lib scope (.fnCall name es) =
        (evaluator fuel).callScriptFn lib scope fndef vs ∧
      call_fn_dynamic_raw fuel scope lib name vs =
        .error (.errorFunctionNotFound name)) := by
  have h1 : evalExpr (fuel + 1) lib scope (.fnCall name es) =
      (evalExprList fuel lib scope es).bind
        (fun vs =>
          execFnCall fuel lib scope name vs.length vs false false) := rfl
  constructor
  · intro hpub
    have hall := get_script_fn_false_of_true lib name vs.length fndef hpub
    rw [h1, hargs]
    show execFnCall fuel lib scope name vs.length vs false false = _
    unfold execFnCall Evaluator.execFnCall call_fn_dynamic_raw
    rw [hall, hpub]
    rfl
  · intro hall hpriv
    constructor
    · rw [h1, hargs]
      show execFnCall fuel lib scope name vs.length vs false false = _
      unfold execFnCall Evaluator.execFnCall
      rw [hall]
      rfl
    · have hnone : lib.get_script_fn name vs.length true = none := by
        rcases hfind : lib.findFn name vs.length with _ | g
        · simp [Module.get_script_fn, hfind] at hall
        · simp [Module.get_script_fn, hfind, beq_iff_eq] at hall ⊢
          rw [hall, hpriv]
      unfold call_fn_dynamic_raw
      rw [hnone]

/-- C2 (witness): calling the public identity function `f(a) { a }` on the
literal 7 through the expression path agrees with the host-API path. -/
theorem c2_witness :
    evalExpr 6 [⟨Stmt.exprStmt (Expr.var "a"), "f", FnAccess.pub, ["a"]⟩] []
        (.fnCall "f" [.intLit 7]) =
      call_fn_dynamic_raw 5 []
        [⟨Stmt.exprStmt (Expr.var "a"), "f", FnAccess.pub, ["a"]⟩]
        "f" [.int 7] :=
  (c2_call_fn_eq_direct_eval 5 _ [] "f" [.intLit 7] [.int 7]
    ⟨Stmt.exprStmt (Expr.var "a"), "f", FnAccess.pub, ["a"]⟩ rfl).1 rfl

/-- C3 (counterexample): evaluating `const x = 123; x = 42;` fails with the
parse-time error `ErrorParsing(AssignmentToConstant("x"))` (as asserted by
`src/tests/constants.rs` lines 9-14), which is a different error from the
runtime `ErrorAssignmentToConstant("x")` the claim promises for every script
that assigns to the constant. -/
theorem c3_counterexample :
    runScript 9 [] []
        [.constDecl "x" (.intLit 123), .assign "x" (.intLit 42)] =
      .error (.errorParsing (.assignmentToConstant "x")) ∧
    EvalErr.errorParsing (.assignmentToConstant "x") ≠
      EvalErr.errorAssignmentToConstant "x" :=
  ⟨rfl, by decide⟩

/-- C3 (amended): evaluating `const x = 123; x` returns Int(123); a script
that assigns to the constant `x` is rejected with `AssignmentToConstant("x")`
— as the parse-time error `ErrorParsing(AssignmentToConstant("x"))` when the
assignment is statically identified (a script-declared constant), and as the
eval-time error `ErrorAssignmentToConstant("x")` when it is not (a constant
pushed into the scope by the host). -/
theorem c3_const_assignment (fuel : Nat) (scope : Scope) (lib : Module)
    (e : Expr) (rest : List Stmt) (v : Dynamic) (k : Int) :
    runScript (fuel + 4) [] []
        [.constDecl "x" (.intLit 123), .exprStmt (.var "x")] =
      .ok (.int 123) ∧
    runScript fuel scope lib
        (.constDecl "x" (.intLit 123) :: .assign "x" e :: rest) =
      .error (.errorParsing (.assignmentToConstant "x")) ∧
    runScript (fuel + 4) (⟨"x", v, true⟩ :: scope) lib
        [.assign "x" (.intLit k)] =
      .error (.errorAssignmentToConstant "x") := by
  refine ⟨rfl, ?_, rfl⟩
  have hstuck : ∀ (ss : List Stmt) (env : List (String × Bool)) (n : String),
      (ss.foldl
        (fun acc s =>
          match acc.1 with
          | some _ => acc
          | none => compileCheckStmt acc.2 s)
        ((some n : Option String), env)).1 = some n := by
    intro ss
    induction ss with
    | nil => intro env n; rfl
    | cons s ss ih => intro env n; exact ih env n
  have hc : compileCheck
      (.constDecl "x" (.intLit 123) :: .assign "x" e :: rest) = some "x" := by
    show (rest.foldl
      (fun acc s =>
        match acc.1 with
        | some _ => acc
        | none => compileCheckStmt acc.2 s)
      ((some "x" : Option String), [("x", true)])).1 = some "x"
    exact hstuck rest _ _
  simp only [runScript, hc]

/-- C4: for every requested result type, scope and AST (and likewise for
every call through `call_fn`), the typed wrapper returns Ok exactly when the
underlying evaluation completes and the resulting Value casts to the
requested type; when evaluation completes but the cast fails, the wrapper
returns `ErrorMismatchOutputType` carrying the expected and actual type
names. -/
theorem c4_mismatch_output_type (ty : Ty) (fuel : Nat) (scope : Scope)
    (ast : AST) (name : String) (args : List Dynamic) :
    ((∃ v, eval_ast_with_scope ty fuel scope ast = .ok v) ↔
      (∃ p, evalStmts fuel ast.lib scope ast.statements = .ok p ∧
        dynTy p.2 = ty)) ∧
    (∀ p, evalStmts fuel ast.lib scope ast.statements = .ok p →
      dynTy p.2 ≠ ty →
      eval_ast_with_scope ty fuel scope ast =
        .error (.errorMismatchOutputType (tyName ty) (dynTypeName p.2))) ∧
    ((∃ v, call_fn ty fuel scope ast name args = .ok v) ↔
      (∃ d, call_fn_dynamic_raw fuel scope ast.lib name args = .ok d ∧
        dynTy d = ty)) ∧
    (∀ d, call_fn_dynamic_raw fuel scope ast.lib name args = .ok d →
      dynTy d ≠ ty →
      call_fn ty fuel scope ast name args =
        .error (.errorMismatchOutputType (tyName ty) (dynTypeName d))) := by
  refine ⟨?_, ?_, ?_, ?_⟩
  · unfold eval_ast_with_scope
    rcases h : evalStmts fuel ast.lib scope ast.statements with e | ⟨sc, d⟩
    · simp
    · simp only [try_cast]
      by_cases hd : dynTy d = ty
      · simp [hd]
      · simp [hd]
  · intro p hp hne
    unfold eval_ast_with_scope
    rw [hp]
    simp [try_cast, hne]
  · unfold call_fn
    rcases h : call_fn_dynamic_raw fuel scope ast.lib name args with e | d
    · simp
    · simp only [try_cast]
      by_cases hd : dynTy d = ty
      · simp [hd]
      · simp [hd]
  · intro d hd hne
    unfold call_fn
    rw [hd]
    simp [try_cast, hne]

/-- C4 (witness): a script producing Int(7), requested as Bool, yields
`ErrorMismatchOutputType("bool", "i64")`. -/
theorem c4_witness :
    eval_ast_with_scope .tBool 4 [] (AST.mk [.exprStmt (.intLit 7)] []) =
      .error (.errorMismatchOutputType "bool" "i64") :=
  (c4_mismatch_output_type .tBool 4 []
    (AST.mk [.exprStmt (.intLit 7)] []) "f" []).2.1
    ([], .int 7) rfl (by decide)

/-- C5: for every function pointer carrying a curry list, every optional
`this` binding and every supplied argument list, `FnPtr::call_dynamic`
invokes dispatch with the function's name, the script hash computed over
curry-plus-supplied arity, and an argument list equal to the curry followed
by the supplied values — with the `this` value, when present, inserted at the
front — and hands the caller back a buffer in which every supplied argument
has been replaced by Unit. -/
theorem c5_call_dynamic (fuel : Nat) (lib : Module) (p : FnPtr)
    (this_ptr : Option Dynamic) (arg_values : List Dynamic) :
    FnPtr.call_dynamic fuel lib p this_ptr arg_values =
      (execFnCall fuel lib [] p.name (p.curry.length + arg_values.length)
        (match this_ptr with
         | some obj => obj :: (p.curry ++ arg_values)
         | none => p.curry ++ arg_values)
        this_ptr.isSome true,
       arg_values.map (fun _ => Dynamic.unit)) := by
  simp [FnPtr.call_dynamic]

/-- C6: cloning only the functions of an AST (whose library, as keyed Module
storage, holds at most one function per key) yields an AST with no statements
and the very same function list — the functions are shared, not deep-copied —
while cloning only the statements yields an AST with the same statements and
an empty library. -/
theorem c6_clone_split (a : AST) (hwf : Module.WF a.lib) :
    a.clone_functions_only.statements = [] ∧
    a.clone_functions_only.lib = a.lib ∧
    a.clone_statements_only.statements = a.statements ∧
    a.clone_statements_only.lib = [] :=
  ⟨rfl, merge_all_empty a.lib hwf, rfl, rfl⟩

/-- C6 (witness): a two-function library survives `clone_functions_only`
verbatim. -/
theorem c6_witness :
    (AST.mk [Stmt.exprStmt (Expr.intLit 5)]
      [⟨Stmt.exprStmt (Expr.intLit 10), "foo", FnAccess.pub, ["x"]⟩,
       ⟨Stmt.exprStmt (Expr.intLit 20), "bar", FnAccess.priv,
         []⟩]).clone_functions_only.lib =
      [⟨Stmt.exprStmt (Expr.intLit 10), "foo", FnAccess.pub, ["x"]⟩,
       ⟨Stmt.exprStmt (Expr.intLit 20), "bar", FnAccess.priv, []⟩] :=
  (c6_clone_split _ (by decide)).2.1

/-- C7: after registering the custom syntax
`exec | $ident$ | -> $block$ while $expr$` whose callback pushes the parsed
identifier with value 0 and repeatedly evaluates the block then the condition
until the condition is false, evaluating
`exec |x| -> { x += 1 } while x < 42; x` yields Int(42). -/
theorem c7_custom_syntax_exec :
    runScript 100 [] []
        [.execCustom "x" (.plusAssign "x" (.intLit 1))
          (.lt (.var "x") (.intLit 42)),
         .exprStmt (.var "x")] =
      .ok (.int 42) := by
  rfl

/-- C8 (counterexample): calling `register_indexer_get` (or
`register_indexer_set`) with the built-in container type Array panics — it
does not return a typed error value — so the claim that these calls do not
panic for built-in container types is false. -/
theorem c8_counterexample :
    register_indexer_get RType.array =
      RegisterOutcome.panicked "Cannot register indexer for arrays." ∧
    register_indexer_set RType.array =
      RegisterOutcome.panicked "Cannot register indexer for arrays." :=
  ⟨rfl, rfl⟩

/-- C8 (amended): `register_indexer_get` and `register_indexer_set` panic
exactly when called with a built-in container type (Array, Map, or any
string type) — a documented "# Panics" contract of both functions — and for
every other type they register the indexer under the engine-internal name
and do not panic. -/
theorem c8_indexer_registration (t : RType) :
    (register_indexer_get t).isPanic = t.isBuiltinContainer ∧
    (register_indexer_set t).isPanic = t.isBuiltinContainer ∧
    (t.isBuiltinContainer = false →
      register_indexer_get t = .registered FN_IDX_GET ∧
      register_indexer_set t = .registered FN_IDX_SET) := by
  cases t <;>
    simp [register_indexer_get, register_indexer_set,
      RegisterOutcome.isPanic, RType.isBuiltinContainer]

/-- C8 (witness): a custom type registers both indexers without panicking. -/
theorem c8_witness :
    register_indexer_get (RType.custom "TestStruct") =
      .registered FN_IDX_GET ∧
    register_indexer_set (RType.custom "TestStruct") =
      .registered FN_IDX_SET :=
  (c8_indexer_registration (RType.custom "TestStruct")).2.2 rfl

/-- C9: converting a string to a function pointer via `FnPtr::try_from`
succeeds exactly when the string is a valid identifier; on success the
pointer carries that name and an empty curried-argument list, and on failure
the call returns `ErrorFunctionNotFound` carrying the string. -/
theorem c9_fnptr_try_from (s : String) :
    (is_valid_identifier s = true → FnPtr.try_from s = .ok ⟨s, []⟩) ∧
    (is_valid_identifier s = false →
      FnPtr.try_from s = .error (.errorFunctionNotFound s)) := by
  constructor <;> intro h <;> simp [FnPtr.try_from, h]

/-- C9 (witness): `"foo"` converts to the pointer `Fn(foo)` with empty curry;
`"9bad"` is rejected with `ErrorFunctionNotFound("9bad")`. -/
theorem c9_witness :
    FnPtr.try_from "foo" = .ok ⟨"foo", []⟩ ∧
    FnPtr.try_from "9bad" = .error (.errorFunctionNotFound "9bad") :=
  ⟨(c9_fnptr_try_from "foo").1 rfl, (c9_fnptr_try_from "9bad").2 rfl⟩

theorem intMin_neg : intMin < 0 := by norm_num [intMin]

/-- At `seconds = intMin` the redirection `seconds < 0 → other_impl(x, -seconds)`
loops: wrapping negation sends `intMin` to itself, so no amount of fuel
reaches a return. -/
theorem timeOpImpl_intMin (fuel : Nat) :
    ∀ (isAdd : Bool) (x : Nat), timeOpImpl fuel isAdd x intMin = none := by
  induction fuel with
  | zero => intro isAdd x; rfl
  | succ n ih =>
      intro isAdd x
      rw [timeOpImpl, if_pos intMin_neg]
      rw [show negWrap intMin = intMin from if_pos rfl]
      exact ih _ _

/-- For non-negative seconds neither implementation redirects: the result is
the checked instant operation, wrapped as Ok or a typed arithmetic error. -/
theorem timeOpImpl_nonneg (fuel : Nat) (isAdd : Bool) (x : Nat) (s : Int)
    (h : ¬ s < 0) :
    timeOpImpl (fuel + 1) isAdd x s =
      some (match (if isAdd then checkedAddInstant x s.toNat
                   else checkedSubInstant x s.toNat) with
            | some t => .ok t
            | none => .error (timestampOverflowMsg s)) := by
  rw [timeOpImpl, if_neg h]

/-- C10 (counterexample): at `seconds = i64::MIN = -(2^63)` the registered
timestamp `+` does **not** terminate with an Ok value or a typed arithmetic
error: `add_impl` redirects to `subtract_impl(x, -seconds)`, the negation of
`intMin` wraps back to `intMin` (or panics in overflow-checked builds), and
the two implementations call each other forever, so the claim that both
operations return a result for every integer number of seconds is false. -/
theorem c10_counterexample : ¬ addTerminates 0 intMin := by
  rintro ⟨fuel, h⟩
  rw [timeOpImpl_intMin] at h
  simp at h

/-- C10 (amended): for every representable timestamp `x` and every 64-bit
integer number of seconds `s` other than `i64::MIN`, the registered timestamp
operators satisfy `+`(x, s) == `-`(x, -s), and both terminate with a result
(Ok or a typed arithmetic error). -/
theorem c10_time_add_sub_equiv (x : Nat) (s : Int) (hx : x ≤ instantMax)
    (hlo : intMin < s) (hhi : s ≤ intMax) :
    timeAdd x s = timeSubtract x (-s) ∧ (timeAdd x s).isSome := by
  unfold timeAdd timeSubtract add_impl subtract_impl
  rcases lt_trichotomy s 0 with h | h | h
  · have hne : s ≠ intMin := ne_of_gt hlo
    have hneg : negWrap s = -s := if_neg hne
    have h1 : timeOpImpl 2 true x s = timeOpImpl 1 false x (-s) := by
      rw [show (2 : Nat) = 1 + 1 from rfl, timeOpImpl, if_pos h, hneg,
        Bool.not_true]
    have hns : ¬ (-s < 0) := by omega
    rw [h1, timeOpImpl_nonneg 0 false x (-s) hns,
      show (2 : Nat) = 1 + 1 from rfl, timeOpImpl_nonneg 1 false x (-s) hns]
    exact ⟨rfl, rfl⟩
  · subst h
    rw [neg_zero, show (2 : Nat) = 1 + 1 from rfl,
      timeOpImpl_nonneg 1 true x 0 (by norm_num),
      timeOpImpl_nonneg 1 false x 0 (by norm_num)]
    simp [checkedAddInstant, checkedSubInstant, hx]
  · have hnegneg : -s < 0 := by omega
    have hne : -s ≠ intMin := by
      rw [intMin]
      rw [intMax] at hhi
      omega
    have h1 : timeOpImpl 2 false x (-s) = timeOpImpl 1 true x s := by
      rw [show (2 : Nat) = 1 + 1 from rfl, timeOpImpl, if_pos hnegneg,
        show negWrap (-s) = s by rw [negWrap, if_neg hne, neg_neg],
        Bool.not_false]
    rw [h1, timeOpImpl_nonneg 0 true x s (by omega),
      show (2 : Nat) = 1 + 1 from rfl, timeOpImpl_nonneg 1 true x s (by omega)]
    exact ⟨rfl, rfl⟩

/-- C10 (witness): the amended equivalence applied at the concrete timestamp 3
and seconds -2. -/
theorem c10_witness :
    timeAdd 3 (-2) = timeSubtract 3 (-(-2)) ∧ (timeAdd 3 (-2)).isSome :=
  c10_time_add_sub_equiv 3 (-2) (by norm_num [instantMax])
    (by norm_num [intMin]) (by norm_num [intMax])

end Rhai

